import Mathlib

/-!
Verification of the VideoSnippets2 processing pipeline.

This file gives a shallow embedding of the pipeline code:
* `createSnippets` embeds `create_snippets` from `src/processing/snippets.py`;
* `processVideo` embeds `process_video` from `src/processing/video.py`;
* `cutVideoSegments` and `cutLibrarySnippets` embed `cut_video_segments`
  and `cut_library_snippets` from `src/processing/video.py`;
* `processVideoAsync` embeds `process_video_async` from `src/app.py`,
  together with the `ProgressTracker` from `src/processing/progress.py`;
* `serve_video` embeds the range-request handler from `src/app.py`.

File-system facts (which artifacts exist), external tool invocations
(ffmpeg, the speech-to-text call, the analysis call) and their outcomes are
modelled as explicit parameters; status-dictionary writes and log/print
statements are modelled as an ordered trace of `Event`s.
-/

namespace VideoSnippets

/-- One transcript segment as stored in `transcription.json`: the fields the
grouper reads (`start`, `end`, `text`, optional `frame_path`).  The JSON field
`end` is called `endTime` here because `end` is a Lean keyword.  Timestamps are
modelled as integers (the grouping logic only copies them). -/
structure Segment where
  start : Int
  endTime : Int
  text : String
  frame_path : Option String
deriving Repr, DecidableEq

/-- One proposed grouping out of `analysis['snippets']`: title, description and
a list of segment indices (indices may be negative, hence `Int`). -/
structure GroupingData where
  title : String
  description : String
  segments : List Int
deriving Repr, DecidableEq

/-- A snippet record as built by `create_snippets` and later mutated by
`cut_video_segments` (`video_path` is attached on a successful cut). -/
structure Snippet where
  id : String
  title : String
  description : String
  segments : List Segment
  video_path : Option String
deriving Repr, DecidableEq

/-- An observable event of a run: a write to the shared status dictionary
(keyed by the video identifier, with status, message and the optional
`progress` percentage — `process_video` writes raw dicts without a progress
field, `ProgressTracker.update` always includes one), or a log/print line.
`logWarn` models `logging.warning`. -/
inductive Event where
  | statusSet (key status message : String) (progress : Option Nat)
  | logInfo (msg : String)
  | logWarn (msg : String)
deriving Repr, DecidableEq

/-- Is this event a `logging.warning` call? -/
def Event.isWarn : Event → Bool
  | .logWarn _ => true
  | _ => false

/-- The per-index copy made in the `create_snippets` loop body:
`{'start': .., 'end': .., 'text': .., 'frame_path': segment.get('frame_path')}`. -/
def copySegment (s : Segment) : Segment :=
  ⟨s.start, s.endTime, s.text, s.frame_path⟩

/-- The inner loop of `create_snippets` (snippets.py lines 270-279): for each
index in the grouping, keep the segment copy when `0 <= segment_idx <
len(segments_data['segments'])`, otherwise produce nothing (the code has no
`else` branch: no log, no exception). -/
def resolveSegments (segs : List Segment) (idxs : List Int) : List Segment :=
  idxs.filterMap (fun idx =>
    if 0 ≤ idx ∧ idx < (segs.length : Int) then
      (segs.get? idx.toNat).map copySegment
    else none)

/-- `snippet_id = f"snippet_{i+1}"` (snippets.py line 251). -/
def snippetId (i : Nat) : String := "snippet_" ++ toString (i + 1)

/-- The snippet dict built for the grouping at position `i`
(snippets.py lines 263-279); it carries no `video_path` key yet. -/
def mkSnippet (segs : List Segment) (i : Nat) (g : GroupingData) : Snippet :=
  ⟨snippetId i, g.title, g.description, resolveSegments segs g.segments, none⟩

/-- Output of the grouper: the returned snippet list, the log trace, and the
individual snippet files written (`snippet_<i+1>.json` each). -/
structure GrouperOut where
  snippets : List Snippet
  logs : List Event
  written : List (String × Snippet)
deriving Repr, DecidableEq

/-- The `for i, snippet_data in enumerate(analysis.get('snippets', []))` loop
of `create_snippets` (snippets.py lines 250-285), with the loop counter made
explicit.  `existingFile` models `os.path.exists` + `json.load` on a snippet
file: `some s` means the file exists with content `s`. -/
def createSnippetsAux (segs : List Segment) (skipExisting : Bool)
    (existingFile : String → Option Snippet) : Nat → List GroupingData → GrouperOut
  | _, [] => ⟨[], [], []⟩
  | i, g :: rest =>
    let sid := snippetId i
    let fname := sid ++ ".json"
    let tail := createSnippetsAux segs skipExisting existingFile (i + 1) rest
    match (if skipExisting then existingFile fname else none) with
    | some loaded =>
      ⟨loaded :: tail.snippets,
       .logInfo ("Snippet " ++ sid ++ " already exists, skipping") :: tail.logs,
       tail.written⟩
    | none =>
      let snip := mkSnippet segs i g
      ⟨snip :: tail.snippets, tail.logs, (fname, snip) :: tail.written⟩

/-- `create_snippets(segments_data, snippets_dir, skip_existing)`
(snippets.py lines 233-287): `segs` is `segments_data['segments']`,
`analysis` is `segments_data['analysis']['snippets']`. -/
def createSnippets (segs : List Segment) (analysis : List GroupingData)
    (skipExisting : Bool) (existingFile : String → Option Snippet) : GrouperOut :=
  createSnippetsAux segs skipExisting existingFile 0 analysis

/-- No snippet file exists yet (fresh run). -/
def noFiles : String → Option Snippet := fun _ => none

/-- Second definition for the refinement claim C1, following the spec text:
retain exactly the indices `i` with `0 <= i < len(segments)`, in order, as full
copies of the resolved segments. -/
def specResolve (segs : List Segment) (idxs : List Int) : List Segment :=
  (idxs.filter (fun idx =>
      decide (0 ≤ idx) && decide (idx < (segs.length : Int)))).map
    (fun idx => copySegment ((segs.get? idx.toNat).getD ⟨0, 0, "", none⟩))

lemma resolveSegments_eq_specResolve (segs : List Segment) (idxs : List Int) :
    resolveSegments segs idxs = specResolve segs idxs := by
  induction idxs with
  | nil => rfl
  | cons idx rest ih =>
    by_cases h : 0 ≤ idx ∧ idx < (segs.length : Int)
    · have hlt : idx.toNat < segs.length := by omega
      have hget : segs.get? idx.toNat = some (segs.get ⟨idx.toNat, hlt⟩) :=
        List.get?_eq_get hlt
      simp only [resolveSegments, specResolve, List.filterMap_cons,
        List.filter_cons, List.get?_eq_getElem?] at ih hget ⊢
      simp [h, h.1, h.2, hget, ih]
    · have hb : (decide (0 ≤ idx) && decide (idx < (segs.length : Int))) = false := by
        rw [← Bool.not_eq_true]
        simp only [Bool.and_eq_true, decide_eq_true_eq]
        exact h
      simp only [resolveSegments, specResolve, List.filterMap_cons,
        List.filter_cons, List.get?_eq_getElem?] at ih ⊢
      simp [h, hb, ih]

lemma createSnippetsAux_fresh (segs : List Segment)
    (ex : String → Option Snippet) (gs : List GroupingData) (i : Nat) :
    createSnippetsAux segs false ex i gs =
      ⟨(List.enumFrom i gs).map (fun p => mkSnippet segs p.1 p.2), [],
       (List.enumFrom i gs).map (fun p => (snippetId p.1 ++ ".json", mkSnippet segs p.1 p.2))⟩ := by
  induction gs generalizing i with
  | nil => rfl
  | cons g rest ih => simp [createSnippetsAux, ih, List.enumFrom]

/-- All indices of `idxs` out of range means nothing is retained. -/
lemma resolveSegments_eq_nil (segs : List Segment) (idxs : List Int)
    (h : ∀ idx ∈ idxs, ¬(0 ≤ idx ∧ idx < (segs.length : Int))) :
    resolveSegments segs idxs = [] := by
  simp only [resolveSegments, List.filterMap_eq_nil_iff]
  intro idx hmem
  simp [h idx hmem]

/-- A concrete 5-segment transcript used for counterexamples and witnesses. -/
def exSegs : List Segment :=
  [⟨0, 2, "s0", none⟩, ⟨2, 4, "s1", none⟩, ⟨4, 6, "s2", none⟩,
   ⟨6, 8, "s3", none⟩, ⟨8, 10, "s4", none⟩]

/-- C1 (claim as stated, refuted): against the 5-segment transcript, the
grouping `[-1, 0, 1, 99]` does retain exactly the copies of segments 0 and 1,
but `create_snippets` logs NO warning for the dropped indices (the
`if 0 <= segment_idx < len(...)` at snippets.py line 272 has no else branch),
so the conjunction "retains only {0,1} AND logs a warning" is false. -/
theorem c1_counterexample :
    ¬ ((createSnippets exSegs [⟨"Title", "Desc", [-1, 0, 1, 99]⟩] false noFiles).snippets =
          [⟨"snippet_1", "Title", "Desc",
            [⟨0, 2, "s0", none⟩, ⟨2, 4, "s1", none⟩], none⟩] ∧
        (createSnippets exSegs [⟨"Title", "Desc", [-1, 0, 1, 99]⟩] false noFiles).logs.any
            Event.isWarn = true) := by
  decide

/-- C1 (amended): for every analysis grouping and every transcript, the
grouper retains exactly the segment indices `i` with `0 <= i <
len(segments)` (in order, as full copies, per `specResolve` which follows the
spec's words), drops every out-of-range index silently — no warning is
logged — and never raises (the embedding is a total function). -/
theorem c1_grouper_index_validation (segs : List Segment)
    (analysis : List GroupingData) (i : Nat) (g : GroupingData)
    (hg : analysis[i]? = some g) :
    (createSnippets segs analysis false noFiles).snippets[i]?
        = some ⟨snippetId i, g.title, g.description, specResolve segs g.segments, none⟩ ∧
    (createSnippets segs analysis false noFiles).logs = [] := by
  rw [createSnippets, createSnippetsAux_fresh]
  refine ⟨?_, rfl⟩
  simp only [List.getElem?_map, List.getElem?_enumFrom, hg, Option.map_some]
  simp [mkSnippet, resolveSegments_eq_specResolve]

/-- Witness for C1: the amended theorem applied to the 5-segment transcript
and the grouping `[-1, 0, 1, 99]`. -/
theorem c1_grouper_index_validation_witness :
    (createSnippets exSegs [⟨"Title", "Desc", [-1, 0, 1, 99]⟩] false noFiles).snippets[0]?
        = some ⟨snippetId 0, "Title", "Desc",
            specResolve exSegs [-1, 0, 1, 99], none⟩ ∧
    (createSnippets exSegs [⟨"Title", "Desc", [-1, 0, 1, 99]⟩] false noFiles).logs = [] :=
  c1_grouper_index_validation exSegs [⟨"Title", "Desc", [-1, 0, 1, 99]⟩] 0
    ⟨"Title", "Desc", [-1, 0, 1, 99]⟩ rfl

/-- C2 (claim as stated, refuted): a grouping whose every index is out of
range (here `[99]` against a 1-segment transcript) still produces a Snippet —
with an empty segment list — so the grouper's output is not empty. -/
theorem c2_counterexample :
    ¬ ((createSnippets [⟨0, 2, "s0", none⟩] [⟨"T", "D", [99]⟩] false noFiles).snippets
        = []) := by
  decide

/-- C2 (amended): a grouping whose every index is invalid still yields a
Snippet whose `segments` list is empty; that snippet is appended to the
returned list and its file is written, so the grouping DOES appear in the
persisted output (it is only skipped later, by the cutter). -/
theorem c2_empty_grouping_kept (segs : List Segment)
    (analysis : List GroupingData) (i : Nat) (g : GroupingData)
    (hg : analysis[i]? = some g)
    (hinv : ∀ idx ∈ g.segments, ¬(0 ≤ idx ∧ idx < (segs.length : Int))) :
    (createSnippets segs analysis false noFiles).snippets[i]?
        = some ⟨snippetId i, g.title, g.description, [], none⟩ ∧
    (snippetId i ++ ".json", (⟨snippetId i, g.title, g.description, [], none⟩ : Snippet))
        ∈ (createSnippets segs analysis false noFiles).written := by
  have hres : resolveSegments segs g.segments = [] := resolveSegments_eq_nil segs g.segments hinv
  rw [createSnippets, createSnippetsAux_fresh]
  constructor
  · simp only [List.getElem?_map, List.getElem?_enumFrom, hg, Option.map_some]
    simp [mkSnippet, hres]
  · have hmem : (i, g) ∈ List.enumFrom 0 analysis := by
      have h2 : (List.enumFrom 0 analysis).get? i = some (i, g) := by
        simp [List.get?_eq_getElem?, List.getElem?_enumFrom, hg]
      exact List.get?_mem h2
    have := List.mem_map_of_mem
      (fun p : Nat × GroupingData => (snippetId p.1 ++ ".json", mkSnippet segs p.1 p.2)) hmem
    simpa [mkSnippet, hres] using this

/-- Witness for C2: the amended theorem applied to a 1-segment transcript and
the all-invalid grouping `[99]`. -/
theorem c2_empty_grouping_kept_witness :
    (createSnippets [⟨0, 2, "s0", none⟩] [⟨"T", "D", [99]⟩] false noFiles).snippets[0]?
        = some ⟨snippetId 0, "T", "D", [], none⟩ ∧
    (snippetId 0 ++ ".json", (⟨snippetId 0, "T", "D", [], none⟩ : Snippet))
        ∈ (createSnippets [⟨0, 2, "s0", none⟩] [⟨"T", "D", [99]⟩] false noFiles).written :=
  c2_empty_grouping_kept [⟨0, 2, "s0", none⟩] [⟨"T", "D", [99]⟩] 0 ⟨"T", "D", [99]⟩ rfl
    (by decide)

/-! ### Range-request video serving (`serve_video`, app.py lines 344-412) -/

/-- `int()` on a decimal digit string. -/
def digitsToNat (ds : List Char) : Nat :=
  ds.foldl (fun n c => 10 * n + (c.toNat - 48)) 0

/-- The scan performed by `re.search(r"(\d+)-(\d*)", range_header)`: the
leftmost maximal digit run immediately followed by a dash is group 1, the
(possibly empty) digit run after the dash is group 2.  `acc` is the digit run
currently being read. -/
def rangeScan (acc : List Char) : List Char → Option (List Char × List Char)
  | [] => none
  | c :: rest =>
    if c.isDigit then rangeScan (acc ++ [c]) rest
    else if c = '-' ∧ acc ≠ [] then some (acc, rest.takeWhile Char.isDigit)
    else rangeScan [] rest

/-- Parsing of the Range header (app.py lines 374-379): `byte1` defaults to 0
but group 1 of the regex is always non-empty; `byte2` stays `None` when group 2
is the empty string (`if groups[1]: byte2 = int(groups[1])`).  A header with no
match makes `match.groups()` raise (`match` is `None`). -/
def parseRangeHeader (s : String) : Option (Nat × Option Nat) :=
  match rangeScan [] s.data with
  | none => none
  | some (g1, g2) =>
    some (digitsToNat g1, if g2 = [] then none else some (digitsToNat g2))

/-- The response assembled by `serve_video`: status code, the `Content-Range`,
`Accept-Ranges` and `Content-Length` headers, and the payload bytes. -/
structure VideoResponse where
  statusCode : Nat
  contentRange : Option String
  acceptRanges : Option String
  contentLength : Option Int
  body : List Nat
deriving Repr, DecidableEq

/-- `f.seek(pos); f.read(n)`: a negative `n` reads to end of file, otherwise at
most `n` bytes are returned (fewer when the file ends first). -/
def fileRead (file : List Nat) (pos : Nat) (n : Int) : List Nat :=
  if n < 0 then file.drop pos else (file.drop pos).take n.toNat

/-- `serve_video` (app.py lines 344-412) after the existence check, for an
existing file `file`.  With a Range header: parse it (an unmatchable header
raises `AttributeError`, caught by the route's `except` into a 500), default
`byte2` to `file_size - 1`, set `length = byte2 - byte1 + 1`, answer 206 with
`Content-Range: bytes {byte1}-{byte2}/{file_size}`, `Accept-Ranges: bytes`,
`Content-Length: {length}` and the bytes read at offset `byte1`.  Without a
Range header: 200 with the whole file. -/
def serve_video (file : List Nat) (rangeHeader : Option String) :
    Except String VideoResponse :=
  match rangeHeader with
  | none => .ok ⟨200, none, some "bytes", none, file⟩
  | some rh =>
    match parseRangeHeader rh with
    | none => .error "AttributeError"
    | some (byte1, ob2) =>
      let byte2 : Nat := ob2.getD (file.length - 1)
      let length : Int := (byte2 : Int) - (byte1 : Int) + 1
      .ok ⟨206,
        some ("bytes " ++ toString byte1 ++ "-" ++ toString byte2 ++ "/"
          ++ toString file.length),
        some "bytes", some length, fileRead file byte1 length⟩

set_option maxRecDepth 10000 in
/-- C8: for every 2000-byte file, a request with header `bytes=500-999`
returns 206, `Content-Range: bytes 500-999/2000`, `Accept-Ranges: bytes`, and
a payload of exactly the 500 bytes 500..999 of the file. -/
theorem c8_range_serving (file : List Nat) (h : file.length = 2000) :
    serve_video file (some "bytes=500-999")
        = .ok ⟨206, some "bytes 500-999/2000", some "bytes", some 500,
            (file.drop 500).take 500⟩ ∧
    ((file.drop 500).take 500).length = 500 ∧
    ∀ j < 500, ((file.drop 500).take 500)[j]? = file[500 + j]? := by
  have hparse : parseRangeHeader "bytes=500-999" = some (500, some 999) := by decide
  refine ⟨?_, ?_, ?_⟩
  · simp only [serve_video, hparse, h, fileRead]
    norm_num
    exact ⟨by rfl, by simp⟩
  · simp [h]
  · intro j hj
    rw [List.getElem?_take, if_pos hj, List.getElem?_drop]

/-- Witness for C8: the 2000-byte file `0, 1, ..., 1999`. -/
theorem c8_range_serving_witness :
    serve_video (List.range 2000) (some "bytes=500-999")
        = .ok ⟨206, some "bytes 500-999/2000", some "bytes", some 500,
            ((List.range 2000).drop 500).take 500⟩ ∧
    (((List.range 2000).drop 500).take 500).length = 500 ∧
    ∀ j < 500, (((List.range 2000).drop 500).take 500)[j]? = (List.range 2000)[500 + j]? :=
  c8_range_serving (List.range 2000) (by simp)

/-- C9: a range request whose parsed end byte is at least the file size is not
clamped: the response is 206, `Content-Range` advertises the requested end,
`Content-Length` is `end - start + 1`, but the payload actually read is only
`file_size - start` bytes — strictly shorter than the advertised length. -/
theorem c9_unclamped_range (file : List Nat) (rh : String) (b1 b2 : Nat)
    (hparse : parseRangeHeader rh = some (b1, some b2))
    (hb1 : b1 < file.length) (hb2 : file.length ≤ b2) :
    serve_video file (some rh)
        = .ok ⟨206,
            some ("bytes " ++ toString b1 ++ "-" ++ toString b2 ++ "/"
              ++ toString file.length),
            some "bytes", some ((b2 : Int) - (b1 : Int) + 1),
            file.drop b1⟩ ∧
    (file.drop b1).length = file.length - b1 ∧
    ((file.drop b1).length : Int) < (b2 : Int) - (b1 : Int) + 1 := by
  have hnneg : ¬((b2 : Int) - (b1 : Int) + 1 < 0) := by omega
  have htake : (file.drop b1).take ((b2 : Int) - (b1 : Int) + 1).toNat = file.drop b1 := by
    apply List.take_of_length_le
    have : (file.drop b1).length = file.length - b1 := List.length_drop b1 file
    omega
  refine ⟨?_, ?_, ?_⟩
  · simp [serve_video, hparse, fileRead, hnneg, htake]
  · exact List.length_drop b1 file
  · rw [List.length_drop]
    omega

/-- Witness for C9: requesting `bytes=1000-5000` of a 2000-byte file. -/
theorem c9_unclamped_range_witness :
    serve_video (List.range 2000) (some "bytes=1000-5000")
        = .ok ⟨206,
            some ("bytes " ++ toString 1000 ++ "-" ++ toString 5000 ++ "/"
              ++ toString (List.range 2000).length),
            some "bytes", some ((5000 : Int) - (1000 : Int) + 1),
            (List.range 2000).drop 1000⟩ ∧
    ((List.range 2000).drop 1000).length = (List.range 2000).length - 1000 ∧
    (((List.range 2000).drop 1000).length : Int) < (5000 : Int) - (1000 : Int) + 1 :=
  c9_unclamped_range (List.range 2000) "bytes=1000-5000" 1000 5000 (by decide)
    (by simp) (by simp)

/-! ### Pipeline orchestrator (`process_video`, video.py lines 21-119) -/

/-- The three stages gated by `process_video`. -/
inductive Stage where
  | audio
  | transcription
  | frames
deriving Repr, DecidableEq

/-- Python exceptions relevant to the pipeline. -/
inductive Exn where
  | runtimeError (msg : String)
  | fileNotFoundError (msg : String)
deriving Repr, DecidableEq

/-- `str(e)` as used for status messages. -/
def Exn.message : Exn → String
  | .runtimeError m => m
  | .fileNotFoundError m => m

/-- How a run (or a whole pipeline) terminates. -/
inductive Outcome where
  | ok
  | raised (e : Exn)
deriving Repr, DecidableEq

/-- Outcome of one external stage call (the ffmpeg subprocess, the
transcription call, the frame extraction): success, or a raised error whose
message is the diagnostic text. -/
inductive StageOutcome where
  | ok
  | err (msg : String)
deriving Repr, DecidableEq

/-- The outcome each stage primitive would have if invoked. -/
structure Oracles where
  audio : StageOutcome
  transcription : StageOutcome
  frames : StageOutcome
deriving Repr, DecidableEq

/-- The oracle for a given stage. -/
def oracleAt (o : Oracles) : Stage → StageOutcome
  | .audio => o.audio
  | .transcription => o.transcription
  | .frames => o.frames

/-- The on-disk state `process_video` and `process_video_async` inspect.
The `Nonempty` fields record whether the artifact has content; `process_video`
never reads `audioNonempty` or `transcriptionNonempty` (it checks bare
`exists()`), while the frames check is `exists() and any(iterdir())`. -/
structure FS where
  audioExists : Bool
  audioNonempty : Bool
  transcriptionExists : Bool
  transcriptionNonempty : Bool
  framesDirExists : Bool
  framesDirNonempty : Bool
  snippetsJsonExists : Bool
  videosDirNonempty : Bool
  uploadsVideoExists : Bool
deriving Repr, DecidableEq

/-- Result of a `process_video` run: the ordered trace of status writes and
log lines, the stages actually invoked, and whether the call returned or
raised. -/
structure RunOut where
  events : List Event
  calls : List Stage
  outcome : Outcome
deriving Repr, DecidableEq

/-- One stage block of `process_video` (the pattern repeated at video.py
lines 52-64, 70-82, 88-100): if the skip flag is set, log and do nothing; else
if the artifact is present, log "using existing"; else write the starting
status (when a status dict was provided), invoke the stage, and log on
success.  Returns the events, the invoked stages, and the stage outcome. -/
def runStage (skip present : Bool) (skipMsg usingMsg : String)
    (key startStatus startMsg doneMsg : String) (st : Stage)
    (out : StageOutcome) (statusProvided : Bool) :
    List Event × List Stage × StageOutcome :=
  if skip then ([.logInfo skipMsg], [], .ok)
  else if present then ([.logInfo usingMsg], [], .ok)
  else
    ((if statusProvided then [.statusSet key startStatus startMsg none] else []) ++
        (match out with
         | .ok => [.logInfo doneMsg]
         | .err _ => []),
      [st], out)

/-- The `except` block of `process_video` (video.py lines 112-119):
`logger.exception` then, when a status dict was provided, the raw
`{'status': 'error', 'message': str(e)}` write (no progress field). -/
def pvErrorEvents (videoId : String) (statusProvided : Bool) (m : String) : List Event :=
  .logInfo "Error during video processing" ::
    (if statusProvided then [.statusSet videoId "error" m none] else [])

/-- `process_video(video_path, output_dir, status_dict, skip_audio,
skip_transcription, skip_frames)` (video.py lines 21-119).  Stages run in
order audio, transcription, frames; the first raising stage aborts the rest,
triggers the `except` block, and re-raises (stage primitives raise
`RuntimeError`).  On success a raw `done` status is written. -/
def processVideo (videoId : String) (fs : FS) (o : Oracles)
    (statusProvided skipAudio skipTranscription skipFrames : Bool) : RunOut :=
  match runStage skipAudio fs.audioExists
      ("Skipping audio extraction for video: " ++ videoId)
      ("Using existing audio for video: " ++ videoId)
      videoId "extracting" "Extracting audio from video..."
      ("Extracted audio from video: " ++ videoId)
      .audio o.audio statusProvided with
  | (evA, csA, .err m) => ⟨evA ++ pvErrorEvents videoId statusProvided m, csA,
      .raised (.runtimeError m)⟩
  | (evA, csA, .ok) =>
    match runStage skipTranscription fs.transcriptionExists
        ("Skipping transcription for video: " ++ videoId)
        ("Using existing transcription for video: " ++ videoId)
        videoId "transcribing" "Transcribing audio..."
        ("Created transcription for video: " ++ videoId)
        .transcription o.transcription statusProvided with
    | (evT, csT, .err m) => ⟨evA ++ evT ++ pvErrorEvents videoId statusProvided m,
        csA ++ csT, .raised (.runtimeError m)⟩
    | (evT, csT, .ok) =>
      match runStage skipFrames (fs.framesDirExists && fs.framesDirNonempty)
          ("Skipping frame extraction for video: " ++ videoId)
          ("Using existing frames for video: " ++ videoId)
          videoId "extracting_frames" "Extracting video frames..."
          ("Extracted frames for video: " ++ videoId)
          .frames o.frames statusProvided with
      | (evF, csF, .err m) => ⟨evA ++ evT ++ evF ++ pvErrorEvents videoId statusProvided m,
          csA ++ csT ++ csF, .raised (.runtimeError m)⟩
      | (evF, csF, .ok) =>
        ⟨evA ++ evT ++ evF ++
            (if statusProvided then
              [.statusSet videoId "done" "Video processing complete" none]
            else []),
          csA ++ csT ++ csF, .ok⟩

/-- The stage outcome of a `runStage` block. -/
lemma runStage_err_inv {skip present : Bool} {skipMsg usingMsg key ss sm dm : String}
    {st : Stage} {out : StageOutcome} {sp : Bool} {ev : List Event}
    {cs : List Stage} {m : String}
    (h : runStage skip present skipMsg usingMsg key ss sm dm st out sp = (ev, cs, .err m)) :
    cs = [st] ∧ out = .err m := by
  unfold runStage at h
  split_ifs at h <;> simp_all

lemma runStage_ok_inv {skip present : Bool} {skipMsg usingMsg key ss sm dm : String}
    {st : Stage} {out : StageOutcome} {sp : Bool} {ev : List Event} {cs : List Stage}
    (h : runStage skip present skipMsg usingMsg key ss sm dm st out sp = (ev, cs, .ok)) :
    cs = [] \/ (cs = [st] /\ out = .ok) := by
  unfold runStage at h
  split_ifs at h <;> simp_all

/-- fs for the C3 counterexample: `audio.mp3` exists but is empty (zero
bytes); nothing else exists. -/
def fsEmptyAudio : FS :=
  { audioExists := true, audioNonempty := false,
    transcriptionExists := false, transcriptionNonempty := false,
    framesDirExists := false, framesDirNonempty := false,
    snippetsJsonExists := false, videosDirNonempty := false,
    uploadsVideoExists := true }

/-- All three stage primitives would succeed. -/
def oAllOk : Oracles := { audio := .ok, transcription := .ok, frames := .ok }

/-- C3 (claim as stated, refuted): the claim says a stage is skipped iff its
artifact exists AND is non-empty.  With an existing but empty `audio.mp3`,
`process_video` still skips audio extraction (video.py line 53 checks bare
`audio_path.exists()`), so "skipped iff exists-and-non-empty" is false for the
audio stage. -/
theorem c3_counterexample :
    ¬ ((Stage.audio ∉ (processVideo "v" fsEmptyAudio oAllOk true false false false).calls)
        ↔ (fsEmptyAudio.audioExists = true ∧ fsEmptyAudio.audioNonempty = true)) := by
  decide

/-- C3 (amended): with no force-skip flag and succeeding stages, audio and
transcription are invoked iff their artifact file does NOT exist (emptiness is
ignored); only the frames stage is invoked iff its directory is missing OR
empty.  When a stage is skipped a "Using existing ..." line is logged; when it
is invoked the corresponding starting status event is written first. -/
theorem c3_stage_skip_conditions (videoId : String) (fs : FS) (o : Oracles)
    (hA : o.audio = .ok) (hT : o.transcription = .ok) (hF : o.frames = .ok) :
    ((Stage.audio ∈ (processVideo videoId fs o true false false false).calls)
        ↔ fs.audioExists = false) ∧
    ((Stage.transcription ∈ (processVideo videoId fs o true false false false).calls)
        ↔ fs.transcriptionExists = false) ∧
    ((Stage.frames ∈ (processVideo videoId fs o true false false false).calls)
        ↔ (fs.framesDirExists && fs.framesDirNonempty) = false) ∧
    (fs.audioExists = true →
      Event.logInfo ("Using existing audio for video: " ++ videoId)
        ∈ (processVideo videoId fs o true false false false).events) ∧
    (fs.audioExists = false →
      Event.statusSet videoId "extracting" "Extracting audio from video..." none
        ∈ (processVideo videoId fs o true false false false).events) ∧
    (fs.transcriptionExists = true →
      Event.logInfo ("Using existing transcription for video: " ++ videoId)
        ∈ (processVideo videoId fs o true false false false).events) ∧
    (fs.transcriptionExists = false →
      Event.statusSet videoId "transcribing" "Transcribing audio..." none
        ∈ (processVideo videoId fs o true false false false).events) ∧
    ((fs.framesDirExists && fs.framesDirNonempty) = true →
      Event.logInfo ("Using existing frames for video: " ++ videoId)
        ∈ (processVideo videoId fs o true false false false).events) ∧
    ((fs.framesDirExists && fs.framesDirNonempty) = false →
      Event.statusSet videoId "extracting_frames" "Extracting video frames..." none
        ∈ (processVideo videoId fs o true false false false).events) := by
  cases hae : fs.audioExists <;> cases hte : fs.transcriptionExists <;>
    cases hfde : fs.framesDirExists <;> cases hfne : fs.framesDirNonempty <;>
    simp [processVideo, runStage, hA, hT, hF, hae, hte, hfde, hfne]

/-- Witness for C3 (amended), at the empty-audio file system with succeeding
stages: audio is not re-extracted (its "Using existing" line is logged) while
transcription and frames are invoked. -/
theorem c3_stage_skip_conditions_witness :
    ((Stage.audio ∈ (processVideo "v" fsEmptyAudio oAllOk true false false false).calls)
        ↔ fsEmptyAudio.audioExists = false) ∧
    ((Stage.transcription ∈ (processVideo "v" fsEmptyAudio oAllOk true false false false).calls)
        ↔ fsEmptyAudio.transcriptionExists = false) :=
  ⟨(c3_stage_skip_conditions "v" fsEmptyAudio oAllOk rfl rfl rfl).1,
   (c3_stage_skip_conditions "v" fsEmptyAudio oAllOk rfl rfl rfl).2.1⟩

/-- C5: whenever `process_video` raises, the last recorded event is the
`{'status': 'error', 'message': str(e)}` write for that video identifier, the
failing stage is the LAST stage invoked (no later stage runs), every earlier
invoked stage succeeded, and the exception is re-raised to the caller. -/
theorem c5_stage_failure_fatal (videoId : String) (fs : FS) (o : Oracles)
    (sA sT sF : Bool) (m : String)
    (h : (processVideo videoId fs o true sA sT sF).outcome = .raised (.runtimeError m)) :
    (processVideo videoId fs o true sA sT sF).events.getLast?
        = some (.statusSet videoId "error" m none) ∧
    (∃ s, (processVideo videoId fs o true sA sT sF).calls.getLast? = some s ∧
      oracleAt o s = .err m ∧
      ∀ s2 ∈ (processVideo videoId fs o true sA sT sF).calls.dropLast,
        oracleAt o s2 = .ok) := by
  unfold processVideo at h ⊢
  split at h
  case _ evA csA m2 heqA =>
    obtain ⟨hcs, hout⟩ := runStage_err_inv heqA
    simp only [RunOut.mk.injEq] at h ⊢
    simp only [Outcome.raised.injEq, Exn.runtimeError.injEq] at h
    subst h
    refine ⟨by simp [pvErrorEvents], Stage.audio, ?_, ?_, ?_⟩ <;>
      simp [hcs, oracleAt, hout]
  case _ evA csA heqA =>
    rcases runStage_ok_inv heqA with hA0 | ⟨hA1, hAok⟩ <;>
    · split at h
      case _ evT csT m2 heqT =>
        obtain ⟨hcs, hout⟩ := runStage_err_inv heqT
        simp only [Outcome.raised.injEq, Exn.runtimeError.injEq] at h
        subst h
        refine ⟨by simp [pvErrorEvents], Stage.transcription, ?_, ?_, ?_⟩ <;>
          simp_all [oracleAt]
      case _ evT csT heqT =>
        rcases runStage_ok_inv heqT with hT0 | ⟨hT1, hTok⟩ <;>
        · split at h
          case _ evF csF m2 heqF =>
            obtain ⟨hcs, hout⟩ := runStage_err_inv heqF
            simp only [Outcome.raised.injEq, Exn.runtimeError.injEq] at h
            subst h
            refine ⟨by simp [pvErrorEvents], Stage.frames, ?_, ?_, ?_⟩ <;>
              simp_all [oracleAt]
          case _ evF csF heqF =>
            simp at h

/-- Witness for C5: a file system with no artifacts and an audio stage that
fails with message "FFmpeg error: boom". -/
def oAudioFails : Oracles :=
  { audio := .err "FFmpeg error: boom", transcription := .ok, frames := .ok }

/-- fs with no artifact present at all. -/
def fsNothing : FS :=
  { audioExists := false, audioNonempty := false,
    transcriptionExists := false, transcriptionNonempty := false,
    framesDirExists := false, framesDirNonempty := false,
    snippetsJsonExists := false, videosDirNonempty := false,
    uploadsVideoExists := true }

theorem c5_stage_failure_fatal_witness :
    (processVideo "v" fsNothing oAudioFails true false false false).events.getLast?
        = some (.statusSet "v" "error" "FFmpeg error: boom" none) ∧
    (∃ s, (processVideo "v" fsNothing oAudioFails true false false false).calls.getLast?
          = some s ∧
      oracleAt oAudioFails s = .err "FFmpeg error: boom" ∧
      ∀ s2 ∈ (processVideo "v" fsNothing oAudioFails true false false false).calls.dropLast,
        oracleAt oAudioFails s2 = .ok) :=
  c5_stage_failure_fatal "v" fsNothing oAudioFails false false false "FFmpeg error: boom"
    (by decide)

/-! ### Segment cutter (`cut_video_segments`, video.py lines 226-294) -/

/-- The filesystem-safe clip name (video.py line 251):
lowercased title, every non-alphanumeric character replaced by an
underscore. -/
def safeName (title : String) : String :=
  String.mk (title.toLower.data.map (fun c => if c.isAlphanum then c else '_'))

/-- `os.path.relpath(output_file, output_dir)` for the clip written under
`videos/` (video.py lines 252, 283). -/
def videoPathFor (title : String) : String :=
  "videos/" ++ safeName title ++ ".mp4"

/-- Output of the cutter loop: mutated snippet list, the print trace, and the
positions at which ffmpeg was invoked. -/
structure CutOut where
  snippets : List Snippet
  logs : List Event
  cutCalls : List Nat
deriving Repr, DecidableEq

/-- The `for snippet in snippets_data.get('snippets', [])` loop of
`cut_video_segments` (video.py lines 241-286), position made explicit.
`cutOk i` says whether the ffmpeg invocation for the snippet at position `i`
exits zero.  An empty-segment snippet is skipped with a printed warning; a
failed cut prints the error and `continue`s without attaching `video_path`
(the Python messages quote the title, the quotes are elided here). -/
def cutVideoSegmentsAux (cutOk : Nat → Bool) : Nat → List Snippet → CutOut
  | _, [] => ⟨[], [], []⟩
  | i, s :: rest =>
    let tail := cutVideoSegmentsAux cutOk (i + 1) rest
    if s.segments = [] then
      ⟨s :: tail.snippets,
       .logInfo ("Skipping snippet " ++ s.title ++ " - no segments") :: tail.logs,
       tail.cutCalls⟩
    else if cutOk i then
      ⟨{ s with video_path := some (videoPathFor s.title) } :: tail.snippets,
       .logInfo ("Cutting video for " ++ s.title ++ "...") :: tail.logs,
       i :: tail.cutCalls⟩
    else
      ⟨s :: tail.snippets,
       .logInfo ("Cutting video for " ++ s.title ++ "...") ::
         .logInfo ("Error cutting video for " ++ s.title) :: tail.logs,
       i :: tail.cutCalls⟩

/-- A full `cut_video_segments` run: the loop, then the unconditional
re-persist of `snippets/snippets.json` with the mutated list (video.py lines
288-292).  The function always returns normally. -/
structure CutRun where
  snippets : List Snippet
  logs : List Event
  cutCalls : List Nat
  manifestWritten : List Snippet
deriving Repr, DecidableEq

def cutVideoSegments (snips : List Snippet) (cutOk : Nat → Bool) : CutRun :=
  let out := cutVideoSegmentsAux cutOk 0 snips
  ⟨out.snippets, out.logs, out.cutCalls, out.snippets⟩

/-- What happens to the snippet at position `i`: untouched when it has no
segments or its cut fails, `video_path` attached when the cut succeeds. -/
def cutTransform (cutOk : Nat → Bool) (i : Nat) (s : Snippet) : Snippet :=
  if s.segments = [] then s
  else if cutOk i then { s with video_path := some (videoPathFor s.title) }
  else s

lemma cutAux_getElem? (cutOk : Nat → Bool) (snips : List Snippet) (j i : Nat) :
    (cutVideoSegmentsAux cutOk j snips).snippets[i]?
      = (snips[i]?).map (cutTransform cutOk (j + i)) := by
  induction snips generalizing j i with
  | nil => simp [cutVideoSegmentsAux]
  | cons s rest ih =>
    cases i with
    | zero =>
      by_cases hseg : s.segments = [] <;> by_cases hcut : cutOk j = true <;>
        simp_all [cutVideoSegmentsAux, cutTransform]
    | succ k =>
      have := ih (j + 1) k
      by_cases hseg : s.segments = [] <;> by_cases hcut : cutOk j = true <;>
        simp_all [cutVideoSegmentsAux, cutTransform, Nat.add_assoc, Nat.add_comm 1 k]

lemma cutAux_skip_log (cutOk : Nat → Bool) (snips : List Snippet) (j i : Nat)
    (s : Snippet) (hs : snips[i]? = some s) (hseg : s.segments = []) :
    Event.logInfo ("Skipping snippet " ++ s.title ++ " - no segments")
      ∈ (cutVideoSegmentsAux cutOk j snips).logs := by
  induction snips generalizing j i with
  | nil => simp at hs
  | cons a rest ih =>
    cases i with
    | zero =>
      simp only [List.getElem?_cons_zero, Option.some.injEq] at hs
      subst hs
      simp [cutVideoSegmentsAux, hseg]
    | succ k =>
      simp only [List.getElem?_cons_succ] at hs
      have hmem := ih (j + 1) k hs
      by_cases h2 : a.segments = [] <;> by_cases h3 : cutOk j = true <;>
        simp [cutVideoSegmentsAux, h2, h3, hmem]

lemma cutAux_fail_log (cutOk : Nat → Bool) (snips : List Snippet) (j i : Nat)
    (s : Snippet) (hs : snips[i]? = some s) (hseg : s.segments ≠ [])
    (hfail : cutOk (j + i) = false) :
    Event.logInfo ("Error cutting video for " ++ s.title)
      ∈ (cutVideoSegmentsAux cutOk j snips).logs := by
  induction snips generalizing j i with
  | nil => simp at hs
  | cons a rest ih =>
    cases i with
    | zero =>
      simp only [List.getElem?_cons_zero, Option.some.injEq] at hs
      subst hs
      simp only [Nat.add_zero] at hfail
      simp [cutVideoSegmentsAux, hseg, hfail]
    | succ k =>
      simp only [List.getElem?_cons_succ] at hs
      have harith : j + (k + 1) = (j + 1) + k := by omega
      rw [harith] at hfail
      have hmem := ih (j + 1) k hs hfail
      by_cases h2 : a.segments = [] <;> by_cases h3 : cutOk j = true <;>
        simp [cutVideoSegmentsAux, h2, h3, hmem]

/-- C7: the cutter never raises; each snippet whose cut fails (or which has no
segments) is skipped — only that one — and the others proceed; the manifest is
re-persisted and, for `video_path`-free input snippets, exactly the
successfully cut ones carry a `video_path` afterwards.  An empty-segment
snippet is skipped with a printed warning. -/
theorem c7_cutter_partial_failure (snips : List Snippet) (cutOk : Nat → Bool)
    (hfresh : ∀ s ∈ snips, s.video_path = none) :
    (cutVideoSegments snips cutOk).manifestWritten
        = (cutVideoSegments snips cutOk).snippets ∧
    (cutVideoSegments snips cutOk).snippets.length = snips.length ∧
    ∀ i s, snips[i]? = some s →
      ((cutVideoSegments snips cutOk).snippets[i]? = some (cutTransform cutOk i s)) ∧
      ((cutTransform cutOk i s).video_path =
        if s.segments ≠ [] ∧ cutOk i = true then some (videoPathFor s.title) else none) ∧
      (s.segments = [] →
        Event.logInfo ("Skipping snippet " ++ s.title ++ " - no segments")
          ∈ (cutVideoSegments snips cutOk).logs) ∧
      (s.segments ≠ [] → cutOk i = false →
        Event.logInfo ("Error cutting video for " ++ s.title)
          ∈ (cutVideoSegments snips cutOk).logs) := by
  refine ⟨rfl, ?_, ?_⟩
  · have h0 : ∀ i, (cutVideoSegments snips cutOk).snippets[i]?
        = (snips[i]?).map (cutTransform cutOk i) := by
      intro i
      have := cutAux_getElem? cutOk snips 0 i
      simpa [cutVideoSegments] using this
    have h1 : (cutVideoSegments snips cutOk).snippets.length = snips.length := by
      by_contra hne
      rcases Nat.lt_or_ge (cutVideoSegments snips cutOk).snippets.length snips.length with hlt | hge
      · have h2 := h0 (cutVideoSegments snips cutOk).snippets.length
        rw [List.getElem?_eq_none (Nat.le_refl _)] at h2
        rw [List.getElem?_eq_getElem hlt] at h2
        simp at h2
      · have hlt2 : snips.length < (cutVideoSegments snips cutOk).snippets.length := by
          omega
        have h2 := h0 snips.length
        rw [List.getElem?_eq_getElem hlt2] at h2
        rw [List.getElem?_eq_none (Nat.le_refl _)] at h2
        simp at h2
    exact h1
  · intro i s hs
    have hvmem : s ∈ snips := by
      have : snips.get? i = some s := by
        simpa [List.get?_eq_getElem?] using hs
      exact List.get?_mem this
    have hvp := hfresh s hvmem
    refine ⟨?_, ?_, ?_, ?_⟩
    · have := cutAux_getElem? cutOk snips 0 i
      simpa [cutVideoSegments, hs] using this
    · by_cases hseg : s.segments = [] <;> by_cases hcut : cutOk i = true <;>
        simp [cutTransform, hseg, hcut, hvp]
    · intro hseg
      exact cutAux_skip_log cutOk snips 0 i s hs hseg
    · intro hseg hfail
      have : cutOk (0 + i) = false := by simpa using hfail
      exact cutAux_fail_log cutOk snips 0 i s hs hseg this

/-- Three one-segment snippets for the C7 witness. -/
def snipA : Snippet := ⟨"snippet_1", "One", "d1", [⟨0, 1, "a", none⟩], none⟩

def snipB : Snippet := ⟨"snippet_2", "Two", "d2", [⟨1, 2, "b", none⟩], none⟩

def snipC : Snippet := ⟨"snippet_3", "Three", "d3", [⟨2, 3, "c", none⟩], none⟩

/-- The cut for the snippet at position 1 (the second one) fails. -/
def cutOkExceptSecond : Nat → Bool := fun i => !(i == 1)

/-- Witness for C7: with three snippets and the middle cut failing, the first
and third snippets carry a `video_path` in the re-persisted output and the
second does not. -/
theorem c7_cutter_partial_failure_witness :
    (cutVideoSegments [snipA, snipB, snipC] cutOkExceptSecond).manifestWritten
        = (cutVideoSegments [snipA, snipB, snipC] cutOkExceptSecond).snippets ∧
    (cutVideoSegments [snipA, snipB, snipC] cutOkExceptSecond).snippets[1]?
        = some (cutTransform cutOkExceptSecond 1 snipB) ∧
    (cutTransform cutOkExceptSecond 1 snipB).video_path = none ∧
    (cutTransform cutOkExceptSecond 0 snipA).video_path = some (videoPathFor snipA.title) ∧
    (cutTransform cutOkExceptSecond 2 snipC).video_path = some (videoPathFor snipC.title) := by
  have h := c7_cutter_partial_failure [snipA, snipB, snipC] cutOkExceptSecond (by decide)
  refine ⟨h.1, (h.2.2 1 snipB rfl).1, ?_, ?_, ?_⟩
  · rw [(h.2.2 1 snipB rfl).2.1]
    decide
  · rw [(h.2.2 0 snipA rfl).2.1]
    simp [snipA, cutOkExceptSecond]
  · rw [(h.2.2 2 snipC rfl).2.1]
    simp [snipC, cutOkExceptSecond]

/-! ### `cut_library_snippets` (video.py lines 296-322) -/

/-- The extensions tried, in order (video.py line 306). -/
def videoExtensions : List String := [".mp4", ".MOV", ".mov"]

/-- The search for the original upload (video.py lines 304-310):
`os.path.join('uploads', f"{video_name}{ext}")` for each extension, first hit
wins. -/
def findUploadVideo (fileExists : String → Bool) (videoName : String) : Option String :=
  videoExtensions.findSome? (fun ext =>
    if fileExists ("uploads/" ++ videoName ++ ext) then
      some ("uploads/" ++ videoName ++ ext)
    else none)

/-- Result of a `cut_library_snippets` call. -/
structure CutLibOut where
  outcome : Outcome
  cutCalls : List Nat
  logs : List Event
  manifestWritten : Option (List Snippet)
deriving Repr, DecidableEq

/-- `cut_library_snippets(library_dir)` (video.py lines 296-322): find the
upload (else raise `FileNotFoundError`), load `snippets/snippets.json` (a
missing manifest raises `FileNotFoundError` from `open`), then run
`cut_video_segments`.  `snippetsJson` is the manifest content when the file
exists. -/
def cutLibrarySnippets (fileExists : String → Bool) (videoName : String)
    (snippetsJson : Option (List Snippet)) (cutOk : Nat → Bool) : CutLibOut :=
  match findUploadVideo fileExists videoName with
  | none =>
    ⟨.raised (.fileNotFoundError
        ("Video file not found in uploads directory: " ++ videoName ++ ".*")),
      [], [], none⟩
  | some _ =>
    match snippetsJson with
    | none =>
      ⟨.raised (.fileNotFoundError
          "No such file or directory: snippets/snippets.json"), [], [], none⟩
    | some manifest =>
      let r := cutVideoSegments manifest cutOk
      ⟨.ok, r.cutCalls, r.logs, some r.manifestWritten⟩

/-- C10: when no upload named `<video_name>.mp4`, `.MOV` or `.mov` exists in
the uploads directory, `cut_library_snippets` raises `FileNotFoundError`
before touching any snippet: no cut is attempted and no manifest is
written, so snippet clips cannot be (re)cut from the persisted artifacts
alone. -/
theorem c10_cut_requires_upload (fileExists : String → Bool) (videoName : String)
    (snippetsJson : Option (List Snippet)) (cutOk : Nat → Bool)
    (h : ∀ ext ∈ videoExtensions, fileExists ("uploads/" ++ videoName ++ ext) = false) :
    cutLibrarySnippets fileExists videoName snippetsJson cutOk
      = ⟨.raised (.fileNotFoundError
          ("Video file not found in uploads directory: " ++ videoName ++ ".*")),
        [], [], none⟩ := by
  have h1 := h ".mp4" (by simp [videoExtensions])
  have h2 := h ".MOV" (by simp [videoExtensions])
  have h3 := h ".mov" (by simp [videoExtensions])
  have hfind : findUploadVideo fileExists videoName = none := by
    simp [findUploadVideo, videoExtensions, List.findSome?_cons, h1, h2, h3]
  simp [cutLibrarySnippets, hfind]

/-- Witness for C10: an empty uploads directory. -/
theorem c10_cut_requires_upload_witness :
    cutLibrarySnippets (fun _ => false) "video1" (some [snipA]) (fun _ => true)
      = ⟨.raised (.fileNotFoundError
          ("Video file not found in uploads directory: " ++ "video1" ++ ".*")),
        [], [], none⟩ :=
  c10_cut_requires_upload (fun _ => false) "video1" (some [snipA]) (fun _ => true)
    (by intro ext hx; rfl)

/-! ### Progress tracker (progress.py) and async pipeline (app.py lines 50-125) -/

/-- `ProgressTracker.STEPS` (progress.py lines 13-21); `none` for a status
that is not a key of the dict. -/
def STEPS (s : String) : Option Nat :=
  if s = "uploading" then some 0
  else if s = "audio" then some 15
  else if s = "transcription" then some 30
  else if s = "frames" then some 45
  else if s = "snippets" then some 60
  else if s = "videos" then some 75
  else if s = "complete" then some 100
  else none

/-- `ProgressTracker.update(status, message)` (progress.py lines 33-53):
writes `{'status': status, 'message': message, 'progress': STEPS.get(status,
0)}` under the tracker's video id. -/
def trackerUpdate (key status message : String) : Event :=
  .statusSet key status message (some ((STEPS status).getD 0))

/-- `ProgressTracker.complete(num_snippets)` message (progress.py
lines 105-110). -/
def completeMsg (n : Nat) : String :=
  if n > 0 then "Processing complete. Created " ++ toString n ++ " snippets!"
  else "Processing complete"

/-- External calls the async pipeline can make. -/
inductive PCall where
  | audio
  | transcription
  | frames
  | analyze
  | cutSnippet (i : Nat)
deriving Repr, DecidableEq

def Stage.toPCall : Stage → PCall
  | .audio => .audio
  | .transcription => .transcription
  | .frames => .frames

/-- Everything `process_video_async` consumes from the environment: the disk
state, the stage outcomes, the analysis call result (`none` = the LLM call
fails, making `get_structured_output` raise), the transcript segments, the
content of `snippets/snippets.json` when it exists, the per-snippet-file
loader, the uploads directory, and the per-snippet cut outcomes. -/
structure AsyncEnv where
  fs : FS
  o : Oracles
  analyze : Option (List GroupingData)
  segments : List Segment
  manifest : List Snippet
  existingSnippetFile : String → Option Snippet
  uploadsFileExists : String → Bool
  cutOk : Nat → Bool

/-- Result of one `process_video_async` run. -/
structure AsyncOut where
  events : List Event
  calls : List PCall
  outcome : Outcome
deriving Repr, DecidableEq

/-- `process_video_async(video_path, video_name)` (app.py lines 50-125).

* The snippets and videos directories are created up front (lines 58-61), so
  the later `videos_dir.exists()` check is necessarily true and only
  `any(videos_dir.iterdir())` matters.
* In the take-it-all shortcut (lines 75-94) the existing artifacts are
  replayed through `ProgressTracker.using_existing` and `complete`.
* Otherwise `process_video` runs with no force-skip flags, then
  `process_snippets` — whose `skip_analysis='analysis' in result` is always
  `False` because `process_video`'s result dict never has an `analysis` key,
  so the analysis call always happens — then `cut_library_snippets` inside the
  inner try/except, whose failure triggers `progress.error` twice (inner and
  outer handler) and re-raises. -/
def processVideoAsync (env : AsyncEnv) (videoId : String) : AsyncOut :=
  let fs := env.fs
  if fs.audioExists && fs.transcriptionExists
      && (fs.framesDirExists && fs.framesDirNonempty)
      && fs.snippetsJsonExists && fs.videosDirNonempty then
    ⟨[trackerUpdate videoId "audio" "Using existing audio...",
      trackerUpdate videoId "transcription" "Using existing transcription...",
      trackerUpdate videoId "frames" "Using existing frames...",
      .logInfo "Loaded data from snippets.json"] ++
      env.manifest.map (fun s => Event.logInfo ("Processing snippet: " ++ s.title)) ++
      [trackerUpdate videoId "snippets" "Using existing snippets...",
       trackerUpdate videoId "videos" "Using existing video segments...",
       trackerUpdate videoId "complete" (completeMsg env.manifest.length),
       .logInfo ("Using existing snippets and videos for: " ++ videoId)],
     [], .ok⟩
  else
    let pv := processVideo videoId fs env.o true false false false
    match pv.outcome with
    | .raised e =>
      ⟨(Event.logInfo ("Processing video: " ++ videoId) :: pv.events) ++
         [.logInfo "Error processing video", trackerUpdate videoId "error" e.message],
       pv.calls.map Stage.toPCall, .raised e⟩
    | .ok =>
      match env.analyze with
      | none =>
        ⟨(Event.logInfo ("Processing video: " ++ videoId) :: pv.events) ++
           [trackerUpdate videoId "snippets" "Creating snippets...",
            .logInfo "Creating snippets",
            .logInfo "Error processing video",
            trackerUpdate videoId "error" "Failed to get analysis from LLM"],
         pv.calls.map Stage.toPCall ++ [.analyze],
         .raised (.runtimeError "Failed to get analysis from LLM")⟩
      | some groupings =>
        let grouper := createSnippets env.segments groupings true env.existingSnippetFile
        let cutRes := cutLibrarySnippets env.uploadsFileExists videoId
            (if fs.snippetsJsonExists then some env.manifest else none) env.cutOk
        match cutRes.outcome with
        | .raised e =>
          ⟨(Event.logInfo ("Processing video: " ++ videoId) :: pv.events) ++
             [trackerUpdate videoId "snippets" "Creating snippets...",
              .logInfo "Creating snippets"] ++ grouper.logs ++
             [trackerUpdate videoId "videos" "Cutting video segments...",
              .logInfo "Cutting video segments",
              .logInfo "Error cutting video segments",
              trackerUpdate videoId "error" e.message,
              .logInfo "Error processing video",
              trackerUpdate videoId "error" e.message],
           pv.calls.map Stage.toPCall ++ [.analyze], .raised e⟩
        | .ok =>
          ⟨(Event.logInfo ("Processing video: " ++ videoId) :: pv.events) ++
             [trackerUpdate videoId "snippets" "Creating snippets...",
              .logInfo "Creating snippets"] ++ grouper.logs ++
             [trackerUpdate videoId "videos" "Cutting video segments...",
              .logInfo "Cutting video segments"] ++ cutRes.logs ++
             [trackerUpdate videoId "complete" (completeMsg grouper.snippets.length),
              .logInfo "Video processing complete"],
           pv.calls.map Stage.toPCall ++ [.analyze] ++ cutRes.cutCalls.map PCall.cutSnippet,
           .ok⟩

/-- The upload handler's initial status write (app.py line 155) followed by
the worker-thread run: the full observable trace for one upload. -/
def fullRunEvents (env : AsyncEnv) (videoId : String) : List Event :=
  [trackerUpdate videoId "uploading" "Video uploaded, starting processing..."] ++
    (processVideoAsync env videoId).events

/-- fs for C4: only the audio and transcription artifacts exist. -/
def fsAudioTransOnly : FS :=
  { audioExists := true, audioNonempty := true,
    transcriptionExists := true, transcriptionNonempty := true,
    framesDirExists := false, framesDirNonempty := false,
    snippetsJsonExists := false, videosDirNonempty := false,
    uploadsVideoExists := true }

/-- Environment for C4: audio + transcription on disk, every external call
would succeed, the upload is still in `uploads/`. -/
def envC4 : AsyncEnv :=
  { fs := fsAudioTransOnly, o := oAllOk,
    analyze := some [⟨"T", "D", [0]⟩],
    segments := [⟨0, 2, "s0", none⟩],
    manifest := [],
    existingSnippetFile := noFiles,
    uploadsFileExists := fun p => p == "uploads/vid.mp4",
    cutOk := fun _ => true }

/-- C4 (code bug): with only audio and transcription present, re-running the
pipeline skips audio and transcription and performs frame extraction and the
analysis/grouping — but NO video cutting happens: `create_snippets` never
writes the aggregate `snippets/snippets.json` (it writes only the individual
`snippet_<n>.json` files), so `cut_library_snippets` raises
`FileNotFoundError` opening the manifest before any cut, and the run ends in
the error state instead of cutting. -/
theorem c4_resume_does_not_cut :
    (processVideoAsync envC4 "vid").calls = [PCall.frames, PCall.analyze] ∧
    (processVideoAsync envC4 "vid").outcome
      = .raised (.fileNotFoundError "No such file or directory: snippets/snippets.json") := by
  decide

/-! ### C6: progress percentages -/

/-- The `progress` field polled from a status write; log lines carry none. -/
def progressOf : Event → Option Nat
  | .statusSet _ _ _ p => p
  | _ => none

/-- The sequence of progress percentages observable in a trace. -/
def percents (evs : List Event) : List Nat := evs.filterMap progressOf

lemma percents_append (xs ys : List Event) :
    percents (xs ++ ys) = percents xs ++ percents ys :=
  List.filterMap_append xs ys progressOf

lemma percents_logInfo_cons (m : String) (xs : List Event) :
    percents (.logInfo m :: xs) = percents xs := by
  simp [percents, progressOf]

lemma percents_logInfo_map {α : Type} (f : α → String) (l : List α) :
    percents (l.map (fun a => Event.logInfo (f a))) = [] := by
  induction l with
  | nil => rfl
  | cons a rest ih =>
    simp only [List.map_cons, percents_logInfo_cons]
    exact ih

lemma percents_runStage (skip present : Bool) (skipMsg usingMsg key ss sm dm : String)
    (st : Stage) (out : StageOutcome) (sp : Bool) :
    percents (runStage skip present skipMsg usingMsg key ss sm dm st out sp).1 = [] := by
  unfold runStage
  split_ifs <;> cases out <;> cases sp <;> simp [percents, progressOf]

lemma percents_pvErrorEvents (videoId : String) (sp : Bool) (m : String) :
    percents (pvErrorEvents videoId sp m) = [] := by
  cases sp <;> simp [pvErrorEvents, percents, progressOf]

/-- Every status write of `process_video` itself is a raw dict with no
`progress` field, so the orchestrator contributes no percentage at all. -/
lemma percents_processVideo (videoId : String) (fs : FS) (o : Oracles)
    (sp sA sT sF : Bool) :
    percents (processVideo videoId fs o sp sA sT sF).events = [] := by
  unfold processVideo
  split
  case _ evA csA m heqA =>
    have h1 : percents evA = [] := by
      have hc := congrArg (fun p : List Event × List Stage × StageOutcome => percents p.1) heqA
      simp only at hc
      rw [← hc]
      exact percents_runStage ..
    simp [percents_append, h1, percents_pvErrorEvents]
  case _ evA csA heqA =>
    have h1 : percents evA = [] := by
      have hc := congrArg (fun p : List Event × List Stage × StageOutcome => percents p.1) heqA
      simp only at hc
      rw [← hc]
      exact percents_runStage ..
    split
    case _ evT csT m heqT =>
      have h2 : percents evT = [] := by
        have hc := congrArg (fun p : List Event × List Stage × StageOutcome => percents p.1) heqT
        simp only at hc
        rw [← hc]
        exact percents_runStage ..
      simp [percents_append, h1, h2, percents_pvErrorEvents]
    case _ evT csT heqT =>
      have h2 : percents evT = [] := by
        have hc := congrArg (fun p : List Event × List Stage × StageOutcome => percents p.1) heqT
        simp only at hc
        rw [← hc]
        exact percents_runStage ..
      split
      case _ evF csF m heqF =>
        have h3 : percents evF = [] := by
          have hc := congrArg (fun p : List Event × List Stage × StageOutcome => percents p.1) heqF
          simp only at hc
          rw [← hc]
          exact percents_runStage ..
        simp [percents_append, h1, h2, h3, percents_pvErrorEvents]
      case _ evF csF heqF =>
        have h3 : percents evF = [] := by
          have hc := congrArg (fun p : List Event × List Stage × StageOutcome => percents p.1) heqF
          simp only at hc
          rw [← hc]
          exact percents_runStage ..
        have hdone : percents (if sp then
            [Event.statusSet videoId "done" "Video processing complete" none]
          else []) = [] := by
          cases sp <;> simp [percents, progressOf]
        simp only [percents_append, h1, h2, h3, hdone, List.append_nil]

/-- The grouper only logs plain info lines. -/
lemma percents_grouperLogs (segs : List Segment) (sk : Bool)
    (ex : String → Option Snippet) (i : Nat) (gs : List GroupingData) :
    percents (createSnippetsAux segs sk ex i gs).logs = [] := by
  induction gs generalizing i with
  | nil => rfl
  | cons g rest ih =>
    have ih1 := ih (i + 1)
    unfold createSnippetsAux
    cases hsk : (if sk then ex (snippetId i ++ ".json") else none) with
    | none =>
      simp only [hsk]
      exact ih1
    | some loaded =>
      simp only [hsk]
      simpa [percents, progressOf] using ih1

/-- The cutter only prints. -/
lemma percents_cutterLogs (cutOk : Nat → Bool) (i : Nat) (snips : List Snippet) :
    percents (cutVideoSegmentsAux cutOk i snips).logs = [] := by
  induction snips generalizing i with
  | nil => rfl
  | cons s rest ih =>
    unfold cutVideoSegmentsAux
    split_ifs <;> simpa [percents, progressOf] using ih (i + 1)

lemma percents_cutLibrary (fe : String → Bool) (videoName : String)
    (sj : Option (List Snippet)) (cutOk : Nat → Bool) :
    percents (cutLibrarySnippets fe videoName sj cutOk).logs = [] := by
  unfold cutLibrarySnippets
  split
  · rfl
  · split
    · rfl
    · exact percents_cutterLogs ..

lemma percents_nil : percents [] = [] := rfl

lemma getLast?_append_right {α : Type} (l m : List α) (x : α)
    (h : m.getLast? = some x) : (l ++ m).getLast? = some x := by
  rw [List.getLast?_append, h]
  rfl

lemma getLast?_cons_of_getLast? {α : Type} (a : α) (l : List α) (x : α)
    (h : l.getLast? = some x) : (a :: l).getLast? = some x := by
  cases l with
  | nil => simp at h
  | cons b m =>
    rw [List.getLast?_cons_cons]
    exact h

lemma percents_tracker_cons (k st m : String) (xs : List Event) :
    percents (trackerUpdate k st m :: xs) = ((STEPS st).getD 0) :: percents xs := by
  simp [percents, progressOf, trackerUpdate]

lemma percents_createSnippets (segs : List Segment) (gs : List GroupingData)
    (sk : Bool) (ex : String → Option Snippet) :
    percents (createSnippets segs gs sk ex).logs = [] :=
  percents_grouperLogs segs sk ex 0 gs

/-- `{"vid"}` fresh-run environment with a pre-existing manifest, so a fresh
run can reach `complete`: audio/transcription/frames are processed live. -/
def envFreshComplete : AsyncEnv :=
  { fs := { audioExists := false, audioNonempty := false,
            transcriptionExists := false, transcriptionNonempty := false,
            framesDirExists := false, framesDirNonempty := false,
            snippetsJsonExists := true, videosDirNonempty := false,
            uploadsVideoExists := true },
    o := oAllOk, analyze := some [], segments := [], manifest := [],
    existingSnippetFile := noFiles,
    uploadsFileExists := fun _ => true, cutOk := fun _ => true }

/-- C6 (claim as stated, refuted): on a successful FRESH run, the mid-pipeline
status writes do not follow the canonical mapping: `process_video` records
statuses `extracting`, `transcribing`, `extracting_frames` and `done` — none
of which is a canonical state — and those writes carry no percentage at all
(raw dict without a `progress` field). -/
theorem c6_counterexample :
    (processVideoAsync envFreshComplete "vid").outcome = .ok ∧
    ¬ (∀ ev ∈ fullRunEvents envFreshComplete "vid", ∀ k st m p,
        ev = Event.statusSet k st m p → ((STEPS st).isSome ∧ p = STEPS st)) := by
  constructor
  · decide
  · intro hall
    have hmem : Event.statusSet "vid" "extracting" "Extracting audio from video..." none
        ∈ fullRunEvents envFreshComplete "vid" := by decide
    have := hall _ hmem "vid" "extracting" "Extracting audio from video..." none rfl
    simp [STEPS] at this

/-- C6 (amended): the percentages that are present in a polled trace form a
non-decreasing sequence; a successful run's percentage sequence ends at 100
(`complete`), while the orchestrator's own mid-run writes contribute no
percentage; a failed run's trace ends with the `error` status write carrying
the failure message (and percent 0, `STEPS.get('error', 0)`). -/
theorem c6_progress_monotone (env : AsyncEnv) (videoId : String) :
    ((processVideoAsync env videoId).outcome = .ok →
      List.Chain' (fun a b => a ≤ b) (percents (fullRunEvents env videoId)) ∧
      (percents (fullRunEvents env videoId)).getLast? = some 100) ∧
    (∀ e, (processVideoAsync env videoId).outcome = .raised e →
      (fullRunEvents env videoId).getLast?
        = some (trackerUpdate videoId "error" e.message)) := by
  unfold fullRunEvents processVideoAsync
  dsimp only
  split
  · constructor
    · intro _
      constructor
      · simp only [List.cons_append, List.nil_append, percents_append,
          percents_tracker_cons, percents_logInfo_cons, percents_logInfo_map,
          percents_nil]
        simp +decide [STEPS, List.chain'_cons]
      · simp only [List.cons_append, List.nil_append, percents_append,
          percents_tracker_cons, percents_logInfo_cons, percents_logInfo_map,
          percents_nil]
        simp +decide [STEPS]
    · intro e he
      simp at he
  · split
    case _ e0 heq =>
      constructor
      · intro hok
        simp at hok
      · intro e he
        simp only [AsyncOut.outcome, Outcome.raised.injEq] at he
        subst he
        dsimp only [List.cons_append, List.nil_append]
        exact getLast?_cons_of_getLast? _ _ _
          (getLast?_cons_of_getLast? _ _ _ (getLast?_append_right _ _ _ rfl))
    case _ heq =>
      split
      · constructor
        · intro hok
          simp at hok
        · intro e he
          simp only [AsyncOut.outcome, Outcome.raised.injEq] at he
          subst he
          dsimp only [List.cons_append, List.nil_append]
          exact getLast?_cons_of_getLast? _ _ _
            (getLast?_cons_of_getLast? _ _ _ (getLast?_append_right _ _ _ rfl))
      · split
        case _ e0 hcut =>
          constructor
          · intro hok
            simp at hok
          · intro e he
            simp only [AsyncOut.outcome, Outcome.raised.injEq] at he
            subst he
            dsimp only [List.cons_append, List.nil_append]
            exact getLast?_cons_of_getLast? _ _ _
              (getLast?_cons_of_getLast? _ _ _ (getLast?_append_right _ _ _ rfl))
        case _ hcut =>
          constructor
          · intro _
            constructor
            · simp only [List.cons_append, List.nil_append, percents_append,
                percents_tracker_cons, percents_logInfo_cons,
                percents_processVideo, percents_createSnippets,
                percents_cutLibrary, percents_nil, List.append_nil]
              simp +decide [STEPS, List.chain'_cons]
            · simp only [List.cons_append, List.nil_append, percents_append,
                percents_tracker_cons, percents_logInfo_cons,
                percents_processVideo, percents_createSnippets,
                percents_cutLibrary, percents_nil, List.append_nil]
              simp +decide [STEPS]
          · intro e he
            simp at he

/-- Witness for C6's amended theorem: the successful-run side at the fresh
completing environment, and the failed-run side at the audio+transcription
resume environment (whose cut stage raises). -/
theorem c6_progress_monotone_witness :
    (List.Chain' (fun a b => a ≤ b) (percents (fullRunEvents envFreshComplete "vid")) ∧
      (percents (fullRunEvents envFreshComplete "vid")).getLast? = some 100) ∧
    (fullRunEvents envC4 "vid").getLast?
        = some (trackerUpdate "vid" "error"
            (Exn.fileNotFoundError "No such file or directory: snippets/snippets.json").message) :=
  ⟨(c6_progress_monotone envFreshComplete "vid").1 (by decide),
   (c6_progress_monotone envC4 "vid").2
     (Exn.fileNotFoundError "No such file or directory: snippets/snippets.json") (by decide)⟩

end VideoSnippets
